import Mathlib

/-!
Shallow embedding of the `afterpaths` source-adapter layer
(`src/afterpaths/sources/base.py` and `src/afterpaths/sources/cursor.py`).

JSON-decoded Python values are modelled by `JsonValue`; Python dictionaries
coming out of `json.loads` are association lists in insertion order.
Fallible Python code (code that may raise) is modelled with `Except String`,
the error string naming the exception class that propagates.
-/

/-- A JSON-decoded Python value: the possible results of `json.loads`. -/
inductive JsonValue where
  | null
  | bool (b : Bool)
  | num (n : Int)
  | str (s : String)
  | arr (elems : List JsonValue)
  | obj (fields : List (String × JsonValue))

mutual

/-- Decidable equality for `JsonValue` (Python `==` on JSON-decoded data). -/
def jsonDecEq : (a b : JsonValue) → Decidable (a = b)
  | .null, .null => isTrue rfl
  | .null, .bool _ => isFalse (fun h => nomatch h)
  | .null, .num _ => isFalse (fun h => nomatch h)
  | .null, .str _ => isFalse (fun h => nomatch h)
  | .null, .arr _ => isFalse (fun h => nomatch h)
  | .null, .obj _ => isFalse (fun h => nomatch h)
  | .bool _, .null => isFalse (fun h => nomatch h)
  | .bool a, .bool b =>
      match decEq a b with
      | isTrue h => isTrue (h ▸ rfl)
      | isFalse h => isFalse (fun hh => h (JsonValue.bool.inj hh))
  | .bool _, .num _ => isFalse (fun h => nomatch h)
  | .bool _, .str _ => isFalse (fun h => nomatch h)
  | .bool _, .arr _ => isFalse (fun h => nomatch h)
  | .bool _, .obj _ => isFalse (fun h => nomatch h)
  | .num _, .null => isFalse (fun h => nomatch h)
  | .num _, .bool _ => isFalse (fun h => nomatch h)
  | .num a, .num b =>
      match decEq a b with
      | isTrue h => isTrue (h ▸ rfl)
      | isFalse h => isFalse (fun hh => h (JsonValue.num.inj hh))
  | .num _, .str _ => isFalse (fun h => nomatch h)
  | .num _, .arr _ => isFalse (fun h => nomatch h)
  | .num _, .obj _ => isFalse (fun h => nomatch h)
  | .str _, .null => isFalse (fun h => nomatch h)
  | .str _, .bool _ => isFalse (fun h => nomatch h)
  | .str _, .num _ => isFalse (fun h => nomatch h)
  | .str a, .str b =>
      match decEq a b with
      | isTrue h => isTrue (h ▸ rfl)
      | isFalse h => isFalse (fun hh => h (JsonValue.str.inj hh))
  | .str _, .arr _ => isFalse (fun h => nomatch h)
  | .str _, .obj _ => isFalse (fun h => nomatch h)
  | .arr _, .null => isFalse (fun h => nomatch h)
  | .arr _, .bool _ => isFalse (fun h => nomatch h)
  | .arr _, .num _ => isFalse (fun h => nomatch h)
  | .arr _, .str _ => isFalse (fun h => nomatch h)
  | .arr xs, .arr ys =>
      match jsonDecEqL xs ys with
      | isTrue h => isTrue (h ▸ rfl)
      | isFalse h => isFalse (fun hh => h (JsonValue.arr.inj hh))
  | .arr _, .obj _ => isFalse (fun h => nomatch h)
  | .obj _, .null => isFalse (fun h => nomatch h)
  | .obj _, .bool _ => isFalse (fun h => nomatch h)
  | .obj _, .num _ => isFalse (fun h => nomatch h)
  | .obj _, .str _ => isFalse (fun h => nomatch h)
  | .obj _, .arr _ => isFalse (fun h => nomatch h)
  | .obj xs, .obj ys =>
      match jsonDecEqO xs ys with
      | isTrue h => isTrue (h ▸ rfl)
      | isFalse h => isFalse (fun hh => h (JsonValue.obj.inj hh))

/-- Decidable equality for lists of `JsonValue`. -/
def jsonDecEqL : (xs ys : List JsonValue) → Decidable (xs = ys)
  | [], [] => isTrue rfl
  | [], _ :: _ => isFalse (fun h => nomatch h)
  | _ :: _, [] => isFalse (fun h => nomatch h)
  | x :: xs, y :: ys =>
      match jsonDecEq x y with
      | isFalse h => isFalse (fun hh => h (List.cons.inj hh).1)
      | isTrue h1 =>
          match jsonDecEqL xs ys with
          | isTrue h2 => isTrue (by rw [h1, h2])
          | isFalse h => isFalse (fun hh => h (List.cons.inj hh).2)

/-- Decidable equality for JSON object field lists. -/
def jsonDecEqO : (xs ys : List (String × JsonValue)) → Decidable (xs = ys)
  | [], [] => isTrue rfl
  | [], _ :: _ => isFalse (fun h => nomatch h)
  | _ :: _, [] => isFalse (fun h => nomatch h)
  | (k1, v1) :: xs, (k2, v2) :: ys =>
      match decEq k1 k2 with
      | isFalse h =>
          isFalse (fun hh => h (congrArg Prod.fst (List.cons.inj hh).1))
      | isTrue hk =>
          match jsonDecEq v1 v2 with
          | isFalse h =>
              isFalse (fun hh => h (congrArg Prod.snd (List.cons.inj hh).1))
          | isTrue hv =>
              match jsonDecEqO xs ys with
              | isTrue ht => isTrue (by rw [hk, hv, ht])
              | isFalse h => isFalse (fun hh => h (List.cons.inj hh).2)

end

instance : DecidableEq JsonValue := jsonDecEq

/-- Python `str.lower()` (character-wise lowering, as in CPython for ASCII). -/
def pyLower (s : String) : String := String.mk (s.data.map Char.toLower)

/-- Python `s.startswith(pre)`. -/
def pyStartsWith (s pre : String) : Bool := pre.data.isPrefixOf s.data

/-- Python slicing `s[n:]`. -/
def pyDrop (s : String) (n : Nat) : String := String.mk (s.data.drop n)

/-- Python slicing `s[:n]`. -/
def pyTake (s : String) (n : Nat) : String := String.mk (s.data.take n)

/-- Python `len(s)` (code points). -/
def pyLen (s : String) : Nat := s.data.length

/-- Python truthiness (`if value:`) for JSON-decoded values. -/
def pyTruthy : JsonValue → Bool
  | .null => false
  | .bool b => b
  | .num n => n != 0
  | .str s => !s.data.isEmpty
  | .arr xs => !xs.isEmpty
  | .obj fs => !fs.isEmpty

/-- Python `repr()` for JSON-decoded values (string escaping elided). -/
def pyRepr : JsonValue → String
  | .null => "None"
  | .bool b => if b then "True" else "False"
  | .num n => toString n
  | .str s => "'" ++ s ++ "'"
  | .arr xs => "[" ++ String.intercalate ", " (xs.attach.map fun p => pyRepr p.1) ++ "]"
  | .obj fs =>
      "\x7b" ++
        String.intercalate ", "
          (fs.attach.map fun p => "'" ++ p.1.1 ++ "': " ++ pyRepr p.1.2) ++
      "\x7d"
decreasing_by
  · have := List.sizeOf_lt_of_mem p.2
    simp_all
    omega
  · obtain ⟨⟨k, v⟩, hm⟩ := p
    have := List.sizeOf_lt_of_mem hm
    simp_all
    omega

/-- Python `str()` for JSON-decoded values. -/
def pyStr : JsonValue → String
  | .str s => s
  | v => pyRepr v

/-- `fields.get(k)` on a decoded JSON object (`None` when absent). -/
def objGet (fields : List (String × JsonValue)) (k : String) : Option JsonValue :=
  match fields with
  | [] => none
  | (k', v) :: rest => if k' = k then some v else objGet rest k

/-- `fields.get(k, d)` on a decoded JSON object. -/
def objGetD (fields : List (String × JsonValue)) (k : String) (d : JsonValue) : JsonValue :=
  (objGet fields k).getD d

/-- Lookup in a Python dict keyed by arbitrary values (`d[k]` / `k in d`). -/
def dictLookup (d : List (JsonValue × JsonValue)) (k : JsonValue) : Option JsonValue :=
  match d with
  | [] => none
  | (k', v) :: rest => if k' = k then some v else dictLookup rest k

/-- Python dict assignment `d[k] = v`: overwrite in place, else append. -/
def dictInsert (d : List (JsonValue × JsonValue)) (k v : JsonValue) :
    List (JsonValue × JsonValue) :=
  match d with
  | [] => [(k, v)]
  | (k', v') :: rest =>
      if k' = k then (k', v) :: rest else (k', v') :: dictInsert rest k v

/-- Python iteration `for x in v`: lists yield elements, strings yield
one-character strings, dicts yield their keys; other values raise. -/
def pyIter : JsonValue → Except String (List JsonValue)
  | .arr xs => .ok xs
  | .str s => .ok (s.toList.map fun c => .str (String.mk [c]))
  | .obj fs => .ok (fs.map fun p => .str p.1)
  | _ => .error "TypeError: not iterable"

/-- `CursorAdapter._normalize_role`: `role.lower()` resolved through the alias
table; raises `AttributeError` when `role` is not a string. -/
def normalize_role (role : JsonValue) : Except String String :=
  match role with
  | .str s =>
      let l := pyLower s
      .ok (if l = "human" then "user"
           else if l = "ai" then "assistant"
           else if l = "system" then "user"
           else l)
  | _ => .error "AttributeError: lower"

/-- `SessionEntry` from `base.py`. `content`, `timestamp`, `tool_name`,
`tool_input`, `summary`-like fields hold whatever Python object was assigned,
hence `JsonValue`. -/
structure SessionEntry where
  role : String
  content : JsonValue
  timestamp : JsonValue := .null
  tool_name : JsonValue := .null
  tool_input : JsonValue := .null
  is_error : Bool := false
  model : JsonValue := .null
deriving DecidableEq

/-- `SessionInfo` from `base.py`. `session_id` is the raw dict key recovered
from the store (a string in practice, but the code never checks). -/
structure SessionInfo where
  session_id : JsonValue
  source : String
  project : String
  path : String
  modified : Int
  size : Nat
  summary : JsonValue := .null
deriving DecidableEq

/-- `SessionInfo.session_type`: `self.session_id.startswith("agent-")`;
raises `AttributeError` when `session_id` is not a string. -/
def SessionInfo.session_type (s : SessionInfo) : Except String String :=
  match s.session_id with
  | .str sid => .ok (if pyStartsWith sid "agent-" then "agent" else "main")
  | _ => .error "AttributeError: startswith"

/-- One content part of a raw message (`read_session` inner loop): dict parts
are dispatched on their `type` field, bare strings emit a text entry, anything
else is ignored. -/
def partEntries (role ts : JsonValue) (part : JsonValue) :
    Except String (List SessionEntry) :=
  match part with
  | .obj fields =>
      if objGetD fields "type" .null = .str "text" then
        match normalize_role role with
        | .error e => .error e
        | .ok r =>
            .ok [{ role := r, content := objGetD fields "text" (.str ""),
                   timestamp := ts }]
      else if objGetD fields "type" .null = .str "tool_use" then
        .ok [{ role := "assistant",
               content := .str ("[Tool: " ++
                 pyStr (objGetD fields "name" (.str "unknown")) ++ "]"),
               timestamp := ts,
               tool_name := objGetD fields "name" .null,
               tool_input := objGetD fields "input" .null }]
      else if objGetD fields "type" .null = .str "tool_result" then
        .ok [{ role := "tool_result",
               content := .str (pyStr (objGetD fields "content" (.str ""))),
               timestamp := ts }]
      else .ok []
  | .str s =>
      match normalize_role role with
      | .error e => .error e
      | .ok r => .ok [{ role := r, content := .str s, timestamp := ts }]
  | _ => .ok []

/-- The `for part in content:` loop of `read_session`. -/
def partsEntries (role ts : JsonValue) : List JsonValue →
    Except String (List SessionEntry)
  | [] => .ok []
  | p :: ps =>
      match partEntries role ts p with
      | .error e => .error e
      | .ok es =>
          match partsEntries role ts ps with
          | .error e => .error e
          | .ok rest => .ok (es ++ rest)

/-- One raw message of `read_session`: `msg.get` calls (raise on non-dicts),
then the branch on the shape of `content`. -/
def msgEntries (msg : JsonValue) : Except String (List SessionEntry) :=
  match msg with
  | .obj fields =>
      let role := objGetD fields "role" (.str "user")
      let content := objGetD fields "content" (.str "")
      let ts := objGetD fields "timestamp" .null
      match content with
      | .arr parts => partsEntries role ts parts
      | .str s =>
          match normalize_role role with
          | .error e => .error e
          | .ok r => .ok [{ role := r, content := .str s, timestamp := ts }]
      | _ => .ok []
  | _ => .error "AttributeError: get"

/-- The `for msg in messages:` loop of `read_session`. -/
def msgsEntries : List JsonValue → Except String (List SessionEntry)
  | [] => .ok []
  | m :: ms =>
      match msgEntries m with
      | .error e => .error e
      | .ok es =>
          match msgsEntries ms with
          | .error e => .error e
          | .ok rest => .ok (es ++ rest)

/-- `read_session` applied to one session's raw record:
`session_data.get("messages", [])` followed by the message loop. -/
def readSessionData (session_data : JsonValue) :
    Except String (List SessionEntry) :=
  match session_data with
  | .obj fields =>
      match pyIter (objGetD fields "messages" (.arr [])) with
      | .error e => .error e
      | .ok msgs => msgsEntries msgs
  | _ => .error "AttributeError: get"

/-- A raw value stored under a key of the `ItemTable`: either falsy
(`NULL`/empty, skipped by `if not value`), a blob `json.loads` rejects, or a
blob decoding to a `JsonValue`. -/
inductive RawValue where
  | empty
  | invalid
  | valid (v : JsonValue)
deriving DecidableEq

/-- A `state.vscdb` store: whether `cursor.execute` succeeds, and the
`ItemTable` rows. -/
structure Store where
  queryOk : Bool
  rows : List (String × RawValue)
deriving DecidableEq

/-- The three keys named in `_get_chat_data`'s SQL query. -/
def chatKeys : List String :=
  ["aiService.prompts", "workbench.panel.aichat.view.aichat.chatdata",
   "composer.composerData"]

/-- The loop body for the list and `tabs` shapes of the chatdata key:
`for i, chat in enumerate(...)`, keeping dicts with a truthy `messages`
under key `chat.get("id", f"<pre><i>")`. -/
def addChatList (pre : String) (sessions : List (JsonValue × JsonValue)) :
    List JsonValue → Nat → List (JsonValue × JsonValue)
  | [], _ => sessions
  | chat :: rest, i =>
      match chat with
      | .obj fields =>
          if pyTruthy (objGetD fields "messages" .null) then
            addChatList pre
              (dictInsert sessions
                (objGetD fields "id" (.str (pre ++ toString i))) chat)
              rest (i + 1)
          else addChatList pre sessions rest (i + 1)
      | _ => addChatList pre sessions rest (i + 1)

/-- The loop body for the composer key:
`for comp_id, composer in composers.items()`, keeping dicts under
`f"composer-<comp_id>"`. -/
def addComposers (sessions : List (JsonValue × JsonValue)) :
    List (String × JsonValue) → List (JsonValue × JsonValue)
  | [] => sessions
  | (comp_id, composer) :: rest =>
      match composer with
      | .obj _ =>
          addComposers
            (dictInsert sessions (.str ("composer-" ++ comp_id)) composer) rest
      | _ => addComposers sessions rest

/-- Dispatch on one fetched row's key and decoded value (`_get_chat_data`
loop body after `json.loads`). The `aiService.prompts` key is fetched but has
no handling branch. `composers.items()` raises on a non-dict value;
`enumerate(tabs)` raises on a non-iterable value. -/
def processRow (sessions : List (JsonValue × JsonValue)) (key : String)
    (data : JsonValue) : Except String (List (JsonValue × JsonValue)) :=
  if key = "workbench.panel.aichat.view.aichat.chatdata" then
    match data with
    | .arr chats => .ok (addChatList "chat-" sessions chats 0)
    | .obj fields =>
        match pyIter (objGetD fields "tabs" (.arr [])) with
        | .error e => .error e
        | .ok tabs => .ok (addChatList "tab-" sessions tabs 0)
    | _ => .ok sessions
  else if key = "composer.composerData" then
    match data with
    | .obj fields =>
        match objGetD fields "composers" (.obj []) with
        | .obj comps => .ok (addComposers sessions comps)
        | _ => .error "AttributeError: items"
    | _ => .ok sessions
  else .ok sessions

/-- `for key, value in cursor.fetchall():` — the SQL `IN` clause restricts the
rows to `chatKeys`; falsy values and `json.JSONDecodeError` are skipped with
`continue`; other exceptions propagate. -/
def processRows (sessions : List (JsonValue × JsonValue)) :
    List (String × RawValue) → Except String (List (JsonValue × JsonValue))
  | [] => .ok sessions
  | (key, value) :: rest =>
      if key ∈ chatKeys then
        match value with
        | .empty => processRows sessions rest
        | .invalid => processRows sessions rest
        | .valid data =>
            match processRow sessions key data with
            | .error e => .error e
            | .ok s2 => processRows s2 rest
      else processRows sessions rest

/-- Outcome of `_get_chat_data`: the returned dict (or the exception that
propagates), plus whether the `sqlite3` connection opened by the call was
closed before it returned. -/
structure ChatDataOutcome where
  result : Except String (List (JsonValue × JsonValue))
  connOpened : Bool
  connClosed : Bool

/-- `CursorAdapter._get_chat_data`. `sqlite3.connect` always yields a handle;
if the query raises `sqlite3.Error` the `except` swallows it and the function
returns the sessions dict built so far (empty) without reaching
`conn.close()`; an uncaught shape error also skips `conn.close()`. -/
def get_chat_data (store : Store) : ChatDataOutcome :=
  if store.queryOk then
    match processRows [] store.rows with
    | .ok sessions => ⟨.ok sessions, true, true⟩
    | .error e => ⟨.error e, true, false⟩
  else ⟨.ok [], true, false⟩

/-- `CursorAdapter.read_session`, given the content of the store at
`session.path`. -/
def read_session (store : Store) (session : SessionInfo) :
    Except String (List SessionEntry) :=
  match (get_chat_data store).result with
  | .error e => .error e
  | .ok chat_data =>
      if chat_data.isEmpty then .ok []
      else
        match dictLookup chat_data session.session_id with
        | none => .ok []
        | some session_data => readSessionData session_data

/-- `CursorAdapter._extract_summary`: the `title` field if truthy, else the
first message's string content truncated to 60 characters, else `None`. -/
def extract_summary (session_data : JsonValue) : Except String JsonValue :=
  match session_data with
  | .obj fields =>
      let title := objGetD fields "title" .null
      if pyTruthy title then .ok title
      else
        let messages := objGetD fields "messages" (.arr [])
        if pyTruthy messages then
          match messages with
          | .arr (first_msg :: _) =>
              match first_msg with
              | .obj ffields =>
                  match objGetD ffields "content" (.str "") with
                  | .str s =>
                      .ok (.str (if pyLen s > 60 then pyTake s 60 ++ "..." else s))
                  | _ => .ok .null
              | _ => .error "AttributeError: get"
          | .str s =>
              match s.toList with
              | _ :: _ => .error "AttributeError: get"
              | [] => .error "IndexError"
          | .obj _ => .error "KeyError: 0"
          | _ => .error "TypeError: not subscriptable"
        else .ok .null
  | _ => .error "AttributeError: get"

/-- The per-workspace descriptor file `workspace.json`: absent, rejected by
`json.loads`, or decoded content. -/
inductive Descriptor where
  | missing
  | unreadable
  | content (v : JsonValue)
deriving DecidableEq

/-- One directory under the `workspaceStorage` root. -/
structure WorkspaceDir where
  name : String
  isDir : Bool
  hasVscdb : Bool
  descriptor : Descriptor
  store : Store
  mtime : Int
  size : Nat
deriving DecidableEq

/-- The platform-specific `workspaceStorage` root. -/
structure CursorFS where
  storageExists : Bool
  workspaces : List WorkspaceDir
deriving DecidableEq

/-- `CursorAdapter._get_workspace_folder`: read `workspace.json`, take its
truthy `folder` value, strip a `file://` scheme. `json.JSONDecodeError` and
`KeyError` are caught; `AttributeError` (non-dict document, non-string truthy
`folder`) propagates. -/
def get_workspace_folder (d : Descriptor) : Except String (Option String) :=
  match d with
  | .missing => .ok none
  | .unreadable => .ok none
  | .content data =>
      match data with
      | .obj fields =>
          let folder := objGetD fields "folder" .null
          if pyTruthy folder then
            match folder with
            | .str s =>
                .ok (some (if pyStartsWith s "file://" then pyDrop s 7 else s))
            | _ => .error "AttributeError: startswith"
          else .ok none
      | _ => .error "AttributeError: get"

/-- `if project_filter and project_name != project_filter: continue` — note
that an empty-string filter is falsy, so it disables filtering. -/
def pfSkip (pf : Option String) (project_name : String) : Bool :=
  match pf with
  | some f => !f.data.isEmpty && project_name != f
  | none => false

/-- The `for session_id, session_data in chat_data.items():` loop of
`list_sessions`, building one `SessionInfo` per recovered session. -/
def buildInfos (w : WorkspaceDir) (project_name : String) :
    List (JsonValue × JsonValue) → Except String (List SessionInfo)
  | [] => .ok []
  | (sid, sdata) :: rest =>
      match extract_summary sdata with
      | .error e => .error e
      | .ok summ =>
          match buildInfos w project_name rest with
          | .error e => .error e
          | .ok infos =>
              .ok ({ session_id := sid, source := "cursor",
                     project := project_name,
                     path := w.name ++ "/state.vscdb",
                     modified := w.mtime, size := w.size,
                     summary := summ } :: infos)

/-- One iteration of the `for workspace_dir in storage_dir.iterdir():` loop
of `list_sessions`. -/
def workspaceSessions (w : WorkspaceDir) (pf : Option String) :
    Except String (List SessionInfo) :=
  if !w.isDir then .ok []
  else if !w.hasVscdb then .ok []
  else
    match get_workspace_folder w.descriptor with
    | .error e => .error e
    | .ok folder? =>
        let project_name :=
          match folder? with
          | some p => if p.data.isEmpty then w.name else p
          | none => w.name
        if pfSkip pf project_name then .ok []
        else
          match (get_chat_data w.store).result with
          | .error e => .error e
          | .ok chat_data =>
              if chat_data.isEmpty then .ok []
              else buildInfos w project_name chat_data

/-- The workspace loop of `list_sessions`. -/
def listWorkspaces : List WorkspaceDir → Option String →
    Except String (List SessionInfo)
  | [], _ => .ok []
  | w :: rest, pf =>
      match workspaceSessions w pf with
      | .error e => .error e
      | .ok ss =>
          match listWorkspaces rest pf with
          | .error e => .error e
          | .ok more => .ok (ss ++ more)

/-- `CursorAdapter.list_sessions`. -/
def list_sessions (fs : CursorFS) (pf : Option String) :
    Except String (List SessionInfo) :=
  if !fs.storageExists then .ok []
  else listWorkspaces fs.workspaces pf

/-- A source adapter as seen by the registry (`base.py`): its name, its
`is_available()` answer, and its `list_sessions` behaviour. -/
structure Adapter where
  name : String
  available : Bool
  sessions : Option String → Except String (List SessionInfo)

/-- `get_all_adapters`: instantiate only the adapters whose `is_available()`
is true. -/
def get_all_adapters (adapters : List Adapter) : List Adapter :=
  adapters.filter (·.available)

/-- The comparator realised by
`sorted(sessions, key=lambda x: x.modified, reverse=True)`. -/
def sessionLe (a b : SessionInfo) : Bool := b.modified ≤ a.modified

/-- The `sessions.extend(adapter.list_sessions(project_filter))` loop of
`list_all_sessions`. -/
def collectSessions : List Adapter → Option String →
    Except String (List SessionInfo)
  | [], _ => .ok []
  | a :: rest, pf =>
      match a.sessions pf with
      | .error e => .error e
      | .ok ss =>
          match collectSessions rest pf with
          | .error e => .error e
          | .ok more => .ok (ss ++ more)

/-- `list_all_sessions`: concatenate every available adapter's listing and
stable-sort by `modified` descending. -/
def list_all_sessions (adapters : List Adapter) (pf : Option String) :
    Except String (List SessionInfo) :=
  match collectSessions (get_all_adapters adapters) pf with
  | .error e => .error e
  | .ok ss => .ok (ss.mergeSort sessionLe)

/-! ### Concrete instances used by witnesses and counterexamples -/

/-- The two-message chat of the design document's worked example. -/
def exChat : JsonValue :=
  .obj [("id", .str "abc"),
        ("messages", .arr [
          .obj [("role", .str "user"), ("content", .str "hi")],
          .obj [("role", .str "assistant"), ("content", .str "hello")]])]

/-- A store holding `exChat` under the chatdata key. -/
def exStore : Store :=
  ⟨true, [("workbench.panel.aichat.view.aichat.chatdata", .valid (.arr [exChat]))]⟩

/-- The `SessionInfo` that `list_sessions` produces for `exChat`. -/
def infoAbc : SessionInfo :=
  ⟨.str "abc", "cursor", "ws1", "ws1/state.vscdb", 100, 7, .str "hi"⟩

/-- A session record whose first message has a non-string `role`:
the summary extraction succeeds but `read_session` raises. -/
def chatBadRole : JsonValue :=
  .obj [("id", .str "abc"),
        ("messages", .arr [.obj [("role", .num 5), ("content", .str "hi")]])]

/-- A store holding `chatBadRole` under the chatdata key. -/
def storeBadRole : Store :=
  ⟨true, [("workbench.panel.aichat.view.aichat.chatdata",
           .valid (.arr [chatBadRole]))]⟩

/-- A one-workspace filesystem around `storeBadRole`; its descriptor is
missing, so the project label falls back to the directory name `ws1`. -/
def fsBadRole : CursorFS :=
  ⟨true, [⟨"ws1", true, true, .missing, storeBadRole, 100, 7⟩]⟩

/-- The listing entry recovered from `fsBadRole`. -/
def infoBadRole : SessionInfo :=
  ⟨.str "abc", "cursor", "ws1", "ws1/state.vscdb", 100, 7, .str "hi"⟩

/-- An always-available adapter returning one fixed session. -/
def adapterA : Adapter :=
  ⟨"alpha", true, fun _ => .ok [⟨.str "s1", "alpha", "p", "w", 5, 0, .null⟩]⟩

/-- An unavailable adapter whose listing would raise if it were ever called. -/
def adapterBad : Adapter := ⟨"beta", false, fun _ => .error "boom"⟩

/-! ### Relations for the metadata-only listing property

Two stores "differ only in the message bodies of their sessions" when they
are equal except that, inside a session record, the value under a message
object's `content` key may differ arbitrarily.  The relations below spell
this out shape by shape for the three chat formats. -/

/-- Pointwise lifting of a relation to lists of equal length. -/
def listRel {α β : Type} (r : α → β → Bool) : List α → List β → Bool
  | [], [] => true
  | a :: as, b :: bs => r a b && listRel r as bs
  | _, _ => false

/-- Message-object fields: equal keys; values equal except under `content`. -/
def msgFieldRel (a b : String × JsonValue) : Bool :=
  a.1 == b.1 && (a.1 == "content" || a.2 == b.2)

/-- Two message objects differing only in their `content` value. -/
def msgRel : JsonValue → JsonValue → Bool
  | .obj f1, .obj f2 => listRel msgFieldRel f1 f2
  | _, _ => false

/-- Two message lists differing only in message bodies. -/
def msgsRel : JsonValue → JsonValue → Bool
  | .arr l1, .arr l2 => listRel (fun a b => msgRel a b || a == b) l1 l2
  | _, _ => false

/-- Session-record fields: equal keys; values equal except under `messages`,
which may instead be related message lists. -/
def sessFieldRel (a b : String × JsonValue) : Bool :=
  a.1 == b.1 && ((a.1 == "messages" && msgsRel a.2 b.2) || a.2 == b.2)

/-- Two session records differing only in message bodies. -/
def sessRel : JsonValue → JsonValue → Bool
  | .obj f1, .obj f2 => listRel sessFieldRel f1 f2
  | _, _ => false

/-- `sessRel` or plain equality. -/
def sessRelE (a b : JsonValue) : Bool := sessRel a b || a == b

/-- Two lists of session records, pointwise `sessRelE`. -/
def sessListRel : JsonValue → JsonValue → Bool
  | .arr l1, .arr l2 => listRel sessRelE l1 l2
  | _, _ => false

/-- Composer-map fields: equal keys, `sessRelE`-related composers. -/
def compFieldRel (a b : String × JsonValue) : Bool :=
  a.1 == b.1 && sessRelE a.2 b.2

/-- Two composer maps, pointwise related. -/
def composersRel : JsonValue → JsonValue → Bool
  | .obj f1, .obj f2 => listRel compFieldRel f1 f2
  | _, _ => false

/-- Chat-format container fields: equal keys; values equal except under
`tabs` (related session lists) or `composers` (related composer maps). -/
def valFieldRel (a b : String × JsonValue) : Bool :=
  a.1 == b.1 &&
    ((a.1 == "tabs" && sessListRel a.2 b.2) ||
     (a.1 == "composers" && composersRel a.2 b.2) || a.2 == b.2)

/-- The container-object form of a related store value. -/
def valObjRel : JsonValue → JsonValue → Bool
  | .obj f1, .obj f2 => listRel valFieldRel f1 f2
  | _, _ => false

/-- Two decoded store values differing only in message bodies, in any of the
three chat formats (or equal). -/
def valRel (v1 v2 : JsonValue) : Bool :=
  sessListRel v1 v2 || valObjRel v1 v2 || v1 == v2

/-- Both rows decodable, with related decodings. -/
def rawValidRel : RawValue → RawValue → Bool
  | .valid j1, .valid j2 => valRel j1 j2
  | _, _ => false

/-- Raw store rows related: equal, or both decodable with related decodings. -/
def rawRel (r1 r2 : RawValue) : Bool :=
  r1 == r2 || rawValidRel r1 r2

/-- Stores differing only in message bodies. -/
def storeRel (s1 s2 : Store) : Bool :=
  s1.queryOk == s2.queryOk &&
  listRel (fun a b => a.1 == b.1 && rawRel a.2 b.2) s1.rows s2.rows

/-- Workspace directories differing only in message bodies. -/
def wsRel (w1 w2 : WorkspaceDir) : Bool :=
  w1.name == w2.name && w1.isDir == w2.isDir && w1.hasVscdb == w2.hasVscdb &&
  w1.descriptor == w2.descriptor && storeRel w1.store w2.store &&
  w1.mtime == w2.mtime && w1.size == w2.size

/-- Filesystems differing only in message bodies. -/
def fsRel (f1 f2 : CursorFS) : Bool :=
  f1.storageExists == f2.storageExists &&
  listRel wsRel f1.workspaces f2.workspaces

/-- Forget the summary field of a listing entry (the one listing field
derived from a message body). -/
def eraseSummary (s : SessionInfo) : SessionInfo := { s with summary := .null }

/-- Relation between recovered chat-data dict entries. -/
def dictEntryRel (p q : JsonValue × JsonValue) : Bool :=
  p.1 == q.1 && sessRelE p.2 q.2

/-- Lift a relation to `Except` results: related successes, or the very same
exception. -/
def exceptRel {α β : Type} (r : α → β → Prop) :
    Except String α → Except String β → Prop
  | .ok a, .ok b => r a b
  | .error e1, .error e2 => e1 = e2
  | _, _ => False

/-- A one-workspace filesystem whose single chat has one message saying
`hello world`. -/
def fsW1 : CursorFS :=
  ⟨true, [⟨"wsA", true, true, .missing,
    ⟨true, [("workbench.panel.aichat.view.aichat.chatdata",
      .valid (.arr [.obj [("id", .str "c1"),
        ("messages", .arr [.obj [("role", .str "user"),
          ("content", .str "hello world")]])]]))]⟩, 50, 9⟩]⟩

/-- `fsW1` with the message body changed to `goodbye`. -/
def fsW2 : CursorFS :=
  ⟨true, [⟨"wsA", true, true, .missing,
    ⟨true, [("workbench.panel.aichat.view.aichat.chatdata",
      .valid (.arr [.obj [("id", .str "c1"),
        ("messages", .arr [.obj [("role", .str "user"),
          ("content", .str "goodbye")]])]]))]⟩, 50, 9⟩]⟩

/-! ### Helper lemmas -/

theorem partsEntries_append (role ts : JsonValue) (ps1 ps2 : List JsonValue) :
    partsEntries role ts (ps1 ++ ps2) =
      match partsEntries role ts ps1 with
      | .error e => .error e
      | .ok e1 =>
          match partsEntries role ts ps2 with
          | .error e => .error e
          | .ok e2 => .ok (e1 ++ e2) := by
  induction ps1 with
  | nil =>
      simp only [List.nil_append, partsEntries]
      cases partsEntries role ts ps2 <;> simp
  | cons p ps ih =>
      simp only [List.cons_append, partsEntries]
      cases hp : partEntries role ts p with
      | error e => rfl
      | ok es =>
          simp only [List.append_eq]
          rw [ih]
          cases partsEntries role ts ps with
          | error e => rfl
          | ok r1 =>
              cases partsEntries role ts ps2 with
              | error e => rfl
              | ok r2 => simp

theorem msgsEntries_append (ms1 ms2 : List JsonValue) :
    msgsEntries (ms1 ++ ms2) =
      match msgsEntries ms1 with
      | .error e => .error e
      | .ok e1 =>
          match msgsEntries ms2 with
          | .error e => .error e
          | .ok e2 => .ok (e1 ++ e2) := by
  induction ms1 with
  | nil =>
      simp only [List.nil_append, msgsEntries]
      cases msgsEntries ms2 <;> simp
  | cons m ms ih =>
      simp only [List.cons_append, msgsEntries]
      cases hm : msgEntries m with
      | error e => rfl
      | ok es =>
          simp only [List.append_eq]
          rw [ih]
          cases msgsEntries ms with
          | error e => rfl
          | ok r1 =>
              cases msgsEntries ms2 with
              | error e => rfl
              | ok r2 => simp

/-! ### Claims -/

/-- C1: for every `SessionInfo` whose `session_id` is a string `sid`,
`session_type` is `"agent"` iff `sid` starts with the reserved prefix
`"agent-"`, and `"main"` otherwise; and `session_type` is a pure function of
`session_id` alone (recomputed on each access), independent of any other
field, in particular of `source`. -/
theorem claim_C1 : ∀ (s : SessionInfo) (sid : String), s.session_id = .str sid →
    ((s.session_type = .ok "agent") ↔ pyStartsWith sid "agent-" = true)
    ∧ (pyStartsWith sid "agent-" = false → s.session_type = .ok "main")
    ∧ (∀ s' : SessionInfo, s'.session_id = s.session_id →
        s'.session_type = s.session_type) := by
  intro s sid h
  refine ⟨?_, ?_, ?_⟩
  · simp only [SessionInfo.session_type, h]
    by_cases hb : pyStartsWith sid "agent-" = true
    · simp [hb]
    · simp [hb]
  · intro hb
    simp [SessionInfo.session_type, h, hb]
  · intro s' h'
    simp only [SessionInfo.session_type, h', h]

theorem claim_C1_witness :
    ((⟨.str "agent-x1", "cursor", "p", "w", 0, 0, .null⟩ : SessionInfo).session_type
      = .ok "agent")
    ∧ ((⟨.str "tab-0", "claude_code", "p", "w", 0, 0, .null⟩ : SessionInfo).session_type
      = .ok "main") :=
  ⟨(claim_C1 ⟨.str "agent-x1", "cursor", "p", "w", 0, 0, .null⟩ "agent-x1" rfl).1.mpr
      (by decide),
   (claim_C1 ⟨.str "tab-0", "claude_code", "p", "w", 0, 0, .null⟩ "tab-0" rfl).2.1
      (by decide)⟩

/-- C2: normalization preserves the raw record's order.  Splicing part lists
and message lists commutes with entry extraction (so entries appear exactly in
part order within a message and in message order within a session, with no
reordering or deduplication), `read_session`'s record handling is the
concatenation over messages, and the worked example yields its two entries in
source order. -/
theorem claim_C2 :
    (∀ role ts ps1 ps2,
      partsEntries role ts (ps1 ++ ps2) =
        match partsEntries role ts ps1 with
        | .error e => .error e
        | .ok e1 =>
            match partsEntries role ts ps2 with
            | .error e => .error e
            | .ok e2 => .ok (e1 ++ e2))
    ∧ (∀ ms1 ms2,
      msgsEntries (ms1 ++ ms2) =
        match msgsEntries ms1 with
        | .error e => .error e
        | .ok e1 =>
            match msgsEntries ms2 with
            | .error e => .error e
            | .ok e2 => .ok (e1 ++ e2))
    ∧ (∀ msgs, readSessionData (.obj [("messages", .arr msgs)]) = msgsEntries msgs)
    ∧ read_session exStore infoAbc =
        .ok [{ role := "user", content := .str "hi" },
             { role := "assistant", content := .str "hello" }] := by
  refine ⟨partsEntries_append, msgsEntries_append, ?_, ?_⟩
  · intro msgs
    rfl
  · rfl

/-- C3: role aliasing (`human` and `system` map to `user`, `ai` to
`assistant`, anything else passes through lower-cased) and the entry emitted
for each recognized part shape: a `text` part uses the message's normalized
role and the part's text; a `tool_use` part emits an `assistant` entry with
the `[Tool: name]` placeholder and the part's `name`/`input`; a `tool_result`
part emits a `tool_result` entry with the stringified payload; a bare string
part emits a text entry under the message's role. -/
theorem claim_C3 :
    (normalize_role (.str "human") = .ok "user"
      ∧ normalize_role (.str "ai") = .ok "assistant"
      ∧ normalize_role (.str "system") = .ok "user")
    ∧ (∀ s : String, pyLower s ≠ "human" → pyLower s ≠ "ai" →
        pyLower s ≠ "system" → normalize_role (.str s) = .ok (pyLower s))
    ∧ (∀ role ts fields r, normalize_role role = .ok r →
        objGetD fields "type" .null = .str "text" →
        partEntries role ts (.obj fields) =
          .ok [{ role := r, content := objGetD fields "text" (.str ""),
                 timestamp := ts }])
    ∧ (∀ role ts fields n, objGetD fields "type" .null = .str "tool_use" →
        objGet fields "name" = some (.str n) →
        partEntries role ts (.obj fields) =
          .ok [{ role := "assistant", content := .str ("[Tool: " ++ n ++ "]"),
                 timestamp := ts, tool_name := .str n,
                 tool_input := objGetD fields "input" .null }])
    ∧ (∀ role ts fields payload, objGetD fields "type" .null = .str "tool_result" →
        objGetD fields "content" (.str "") = payload →
        partEntries role ts (.obj fields) =
          .ok [{ role := "tool_result", content := .str (pyStr payload),
                 timestamp := ts }])
    ∧ (∀ role ts s r, normalize_role role = .ok r →
        partEntries role ts (.str s) =
          .ok [{ role := r, content := .str s, timestamp := ts }]) := by
  refine ⟨⟨rfl, rfl, rfl⟩, ?_, ?_, ?_, ?_, ?_⟩
  · intro s h1 h2 h3
    simp [normalize_role, h1, h2, h3]
  · intro role ts fields r hr htype
    simp only [objGetD] at htype
    simp [partEntries, objGetD, htype, hr]
  · intro role ts fields n htype hname
    simp only [objGetD] at htype
    simp [partEntries, objGetD, htype, hname, pyStr]
  · intro role ts fields payload htype hpayload
    simp only [objGetD] at htype hpayload
    simp [partEntries, objGetD, htype, hpayload]
  · intro role ts s r hr
    simp [partEntries, hr]

theorem claim_C3_witness :
    partEntries (.str "Human") (.str "t1")
        (.obj [("type", .str "text"), ("text", .str "hi")]) =
      .ok [{ role := "user", content := .str "hi", timestamp := .str "t1" }] := by
  have h := claim_C3.2.2.1 (.str "Human") (.str "t1")
    [("type", .str "text"), ("text", .str "hi")] "user" rfl rfl
  simpa using h

/-- C10: a dict part whose `type` is none of `text`/`tool_use`/`tool_result`,
or a part that is neither a dict nor a string, emits no entry; dropping such a
part from a part list leaves the extraction of the remaining parts
unchanged. -/
theorem claim_C10 :
    (∀ role ts fields, objGetD fields "type" .null ≠ .str "text" →
        objGetD fields "type" .null ≠ .str "tool_use" →
        objGetD fields "type" .null ≠ .str "tool_result" →
        partEntries role ts (.obj fields) = .ok [])
    ∧ (∀ role ts, partEntries role ts .null = .ok []
        ∧ (∀ b, partEntries role ts (.bool b) = .ok [])
        ∧ (∀ n, partEntries role ts (.num n) = .ok [])
        ∧ (∀ xs, partEntries role ts (.arr xs) = .ok []))
    ∧ (∀ role ts ps1 ps2 junk, partEntries role ts junk = .ok [] →
        partsEntries role ts (ps1 ++ junk :: ps2) =
          partsEntries role ts (ps1 ++ ps2)) := by
  refine ⟨?_, ?_, ?_⟩
  · intro role ts fields h1 h2 h3
    simp [partEntries, h1, h2, h3]
  · intro role ts
    exact ⟨rfl, fun _ => rfl, fun _ => rfl, fun _ => rfl⟩
  · intro role ts ps1 ps2 junk hj
    have h2 : partsEntries role ts (junk :: ps2) = partsEntries role ts ps2 := by
      simp only [partsEntries, hj]
      cases partsEntries role ts ps2 <;> simp
    rw [partsEntries_append, h2, ← partsEntries_append]

theorem claim_C10_witness :
    partsEntries (.str "user") .null
        [.obj [("type", .str "thinking")], .str "hey"] =
      partsEntries (.str "user") .null [.str "hey"] := by
  have h := claim_C10.2.2 (.str "user") .null []
    [JsonValue.str "hey"] (.obj [("type", .str "thinking")]) rfl
  simpa using h

theorem processRows_skip_invalid (acc : List (JsonValue × JsonValue))
    (rows1 rows2 : List (String × RawValue)) (k : String) :
    processRows acc (rows1 ++ (k, .invalid) :: rows2) =
      processRows acc (rows1 ++ rows2) := by
  induction rows1 generalizing acc with
  | nil =>
      by_cases hk : k ∈ chatKeys <;> simp [processRows, hk]
  | cons r rest ih =>
      obtain ⟨key, value⟩ := r
      by_cases hk : key ∈ chatKeys
      · cases value with
        | empty => simp [processRows, hk, ih]
        | invalid => simp [processRows, hk, ih]
        | valid data =>
            simp only [List.cons_append, processRows, hk, if_pos]
            cases processRow acc key data with
            | error e => rfl
            | ok s2 => simp [ih]
      · simp [processRows, hk, ih]

theorem processRows_all_skipped (acc : List (JsonValue × JsonValue))
    (rows : List (String × RawValue))
    (h : ∀ r ∈ rows, r.2 = RawValue.empty ∨ r.2 = RawValue.invalid) :
    processRows acc rows = .ok acc := by
  induction rows with
  | nil => rfl
  | cons r rest ih =>
      obtain ⟨key, value⟩ := r
      have hr := h (key, value) (List.mem_cons_self _ _)
      have hrest : ∀ r ∈ rest, r.2 = RawValue.empty ∨ r.2 = RawValue.invalid :=
        fun r hm => h r (List.mem_cons_of_mem _ hm)
      rcases hr with hr | hr <;>
        · simp only at hr
          subst hr
          by_cases hk : key ∈ chatKeys <;> simp [processRows, hk, ih hrest]

/-- C5: a malformed (undecodable) value under a known chat-format key is
skipped individually: removing such a row from the fetched rows does not
change `_get_chat_data`'s outcome at all, so the sessions extractable from the
other keys are still produced.  Concretely, a store whose chatdata key is
corrupt but whose composer key is valid still yields the composer session. -/
theorem claim_C5 :
    (∀ (q : Bool) (rows1 rows2 : List (String × RawValue)) (k : String),
      get_chat_data ⟨q, rows1 ++ (k, .invalid) :: rows2⟩ =
        get_chat_data ⟨q, rows1 ++ rows2⟩)
    ∧ (get_chat_data ⟨true,
        [("workbench.panel.aichat.view.aichat.chatdata", .invalid),
         ("composer.composerData",
          .valid (.obj [("composers", .obj [("c1", .obj [("x", .null)])])]))]⟩).result =
        .ok [(.str "composer-c1", .obj [("x", .null)])] := by
  constructor
  · intro q rows1 rows2 k
    cases q with
    | false => rfl
    | true =>
        simp only [get_chat_data, processRows_skip_invalid]
  · rfl

/-- C4 fails as stated: a well-formed listing can reference a session record
whose message objects are malformed, and `read_session` then raises instead
of returning an empty list.  Here `list_sessions` succeeds and returns the
session, but `read_session` on it propagates the `AttributeError` raised by
`_normalize_role` on the non-string role. -/
theorem claim_C4_counterexample :
    list_sessions fsBadRole none = .ok [infoBadRole]
    ∧ read_session storeBadRole infoBadRole = .error "AttributeError: lower" :=
  ⟨rfl, rfl⟩

/-- C4 (amended): `read_session` never raises for storage-level faults — a
store whose query fails (missing, locked, corrupted database) or whose values
are all falsy/undecodable yields `[]` — but a decoded session record
containing malformed message objects makes `read_session` propagate an
exception rather than return an empty list. -/
theorem claim_C4 :
    (∀ (store : Store) (s : SessionInfo), store.queryOk = false →
      read_session store s = .ok [])
    ∧ (∀ (store : Store) (s : SessionInfo), store.queryOk = true →
      (∀ r ∈ store.rows, r.2 = RawValue.empty ∨ r.2 = RawValue.invalid) →
      read_session store s = .ok []) := by
  constructor
  · intro store s h
    simp [read_session, get_chat_data, h]
  · intro store s hq h
    simp [read_session, get_chat_data, hq, processRows_all_skipped [] store.rows h,
      List.isEmpty]

theorem claim_C4_witness :
    read_session ⟨false, [("workbench.panel.aichat.view.aichat.chatdata",
        .valid (.arr []))]⟩ infoAbc = .ok []
    ∧ read_session ⟨true, [("workbench.panel.aichat.view.aichat.chatdata",
        .invalid), ("composer.composerData", .empty)]⟩ infoAbc = .ok [] :=
  ⟨claim_C4.1 _ infoAbc rfl,
   claim_C4.2 _ infoAbc rfl (by decide)⟩

/-- C9 fails as stated: when the SQL query raises `sqlite3.Error`, the
`except` clause swallows the error and returns without ever reaching
`conn.close()`, so the call returns normally (an empty result) with the
connection it opened still unreleased. -/
theorem claim_C9_counterexample :
    (get_chat_data ⟨false, []⟩).result = .ok []
    ∧ (get_chat_data ⟨false, []⟩).connOpened = true
    ∧ (get_chat_data ⟨false, []⟩).connClosed = false :=
  ⟨rfl, rfl, rfl⟩

/-- C9 (amended): every `_get_chat_data` call opens its own connection; it is
released before the call returns on the path where the query and all
shape-handling succeed, but when the query raises (the swallowed
`sqlite3.Error` path) or a shape error propagates, `conn.close()` is skipped
and the handle is left to garbage collection. -/
theorem claim_C9 :
    (∀ (store : Store) (r : List (JsonValue × JsonValue)),
      store.queryOk = true → processRows [] store.rows = .ok r →
      (get_chat_data store).connOpened = true
      ∧ (get_chat_data store).connClosed = true
      ∧ (get_chat_data store).result = .ok r)
    ∧ (∀ (store : Store) (e : String),
      store.queryOk = true → processRows [] store.rows = .error e →
      (get_chat_data store).connClosed = false)
    ∧ (∀ store : Store, store.queryOk = false →
      (get_chat_data store).connClosed = false) := by
  refine ⟨?_, ?_, ?_⟩
  · intro store r hq h
    simp [get_chat_data, hq, h]
  · intro store e hq h
    simp [get_chat_data, hq, h]
  · intro store h
    simp [get_chat_data, h]

theorem claim_C9_witness :
    (get_chat_data exStore).connOpened = true
    ∧ (get_chat_data exStore).connClosed = true :=
  ⟨(claim_C9.1 exStore [(.str "abc", exChat)] rfl rfl).1,
   (claim_C9.1 exStore [(.str "abc", exChat)] rfl rfl).2.1⟩

/-- C7: `list_all_sessions` is the concatenation of the listings of exactly
the available adapters, stable-sorted by `modified` descending: an adapter
whose availability check fails is dropped before instantiation (so it
contributes no sessions and can cause no error, wherever it sits in the
registry), and on success the result is a permutation of the concatenated
listings that is pairwise descending in `modified`. -/
theorem claim_C7 :
    (∀ (as1 as2 : List Adapter) (a : Adapter) (pf : Option String),
      a.available = false →
      list_all_sessions (as1 ++ a :: as2) pf = list_all_sessions (as1 ++ as2) pf)
    ∧ (∀ (as : List Adapter) (pf : Option String) (ss : List SessionInfo),
      collectSessions (get_all_adapters as) pf = .ok ss →
      list_all_sessions as pf = .ok (ss.mergeSort sessionLe)
      ∧ (ss.mergeSort sessionLe).Pairwise (fun x y => sessionLe x y = true)
      ∧ (ss.mergeSort sessionLe).Perm ss) := by
  constructor
  · intro as1 as2 a pf h
    simp [list_all_sessions, get_all_adapters, List.filter_append,
      List.filter_cons, h]
  · intro as pf ss h
    refine ⟨?_, ?_, ?_⟩
    · simp [list_all_sessions, h]
    · exact List.sorted_mergeSort
        (fun a b c hab hbc => by
          simp only [sessionLe, decide_eq_true_eq] at *
          omega)
        (fun a b => by
          simp only [sessionLe, Bool.or_eq_true, decide_eq_true_eq]
          omega)
        ss
    · exact List.mergeSort_perm ss sessionLe

theorem claim_C7_witness :
    list_all_sessions ([] ++ adapterBad :: [adapterA]) none =
      list_all_sessions ([] ++ [adapterA]) none
    ∧ list_all_sessions [adapterA] none =
      .ok [⟨.str "s1", "alpha", "p", "w", 5, 0, .null⟩] := by
  constructor
  · exact claim_C7.1 [] [adapterA] adapterBad none rfl
  · have h := (claim_C7.2 [adapterA] none
      [⟨.str "s1", "alpha", "p", "w", 5, 0, .null⟩] rfl).1
    simpa using h

theorem buildInfos_project (w : WorkspaceDir) (pn : String)
    (cd : List (JsonValue × JsonValue)) (ss : List SessionInfo)
    (h : buildInfos w pn cd = .ok ss) : ∀ s ∈ ss, s.project = pn := by
  induction cd generalizing ss with
  | nil =>
      simp only [buildInfos] at h
      cases h
      simp
  | cons p rest ih =>
      obtain ⟨sid, sdata⟩ := p
      simp only [buildInfos] at h
      cases hs : extract_summary sdata with
      | error e => rw [hs] at h; exact (nomatch h)
      | ok summ =>
          rw [hs] at h
          cases hr : buildInfos w pn rest with
          | error e => rw [hr] at h; exact (nomatch h)
          | ok infos =>
              rw [hr] at h
              cases h
              intro s hm
              rcases List.mem_cons.mp hm with hm | hm
              · rw [hm]
              · exact ih infos hr s hm

theorem string_ne_empty_isEmpty {P : String} (hP : P ≠ "") :
    P.data.isEmpty = false := by
  cases hPd : P.data.isEmpty
  · rfl
  · exfalso
    apply hP
    have hd : P.data = [] := by simpa [List.isEmpty_iff] using hPd
    cases P
    simp only at hd
    rw [hd]

theorem workspaceSessions_filter (w : WorkspaceDir) (P : String)
    (ss : List SessionInfo) (hP : P ≠ "")
    (h : workspaceSessions w none = .ok ss) :
    workspaceSessions w (some P) = .ok (ss.filter (fun s => s.project == P)) := by
  have hPd : P.data.isEmpty = false := string_ne_empty_isEmpty hP
  unfold workspaceSessions at h ⊢
  by_cases hd : w.isDir = true
  case neg =>
      simp only [Bool.not_eq_true] at hd
      simp only [hd] at h ⊢
      cases h
      rfl
  by_cases hv : w.hasVscdb = true
  case neg =>
      simp only [Bool.not_eq_true] at hv
      simp only [hd, hv] at h ⊢
      cases h
      rfl
  simp only [hd, hv, Bool.not_true, Bool.false_eq_true, if_false] at h ⊢
  cases hf : get_workspace_folder w.descriptor with
  | error e => rw [hf] at h; exact (nomatch h)
  | ok folder? =>
      rw [hf] at h
      dsimp only at h ⊢
      set pn := (match folder? with
        | some p => if p.data.isEmpty then w.name else p
        | none => w.name) with hpn
      rw [show pfSkip none pn = false from rfl] at h
      simp only [Bool.false_eq_true, if_false] at h
      by_cases hpP : pn = P
      · have hskip : pfSkip (some P) pn = false := by
          simp [pfSkip, hpP]
        rw [hskip]
        simp only [Bool.false_eq_true, if_false]
        cases hc : (get_chat_data w.store).result with
        | error e => rw [hc] at h; exact (nomatch h)
        | ok cd =>
            rw [hc] at h
            dsimp only at h ⊢
            by_cases hempty : cd.isEmpty = true
            · simp only [hempty, if_true] at h ⊢
              cases h
              rfl
            · simp only [hempty, Bool.false_eq_true, if_false] at h ⊢
              rw [h]
              congr 1
              refine (List.filter_eq_self.mpr ?_).symm
              intro s hm
              have := buildInfos_project w pn cd ss h s hm
              simp [this, hpP]
      · have hskip : pfSkip (some P) pn = true := by
          simp [pfSkip, hPd, hpP]
        rw [hskip]
        simp only [if_true]
        cases hc : (get_chat_data w.store).result with
        | error e => rw [hc] at h; exact (nomatch h)
        | ok cd =>
            rw [hc] at h
            dsimp only at h
            by_cases hempty : cd.isEmpty = true
            · simp only [hempty, if_true] at h
              cases h
              rfl
            · simp only [hempty, Bool.false_eq_true, if_false] at h
              congr 1
              refine (List.filter_eq_nil_iff.mpr ?_).symm
              intro s hm
              have := buildInfos_project w pn cd ss h s hm
              simp [this, hpP]

theorem listWorkspaces_filter (ws : List WorkspaceDir) (P : String)
    (l : List SessionInfo) (hP : P ≠ "")
    (h : listWorkspaces ws none = .ok l) :
    listWorkspaces ws (some P) = .ok (l.filter (fun s => s.project == P)) := by
  induction ws generalizing l with
  | nil =>
      simp only [listWorkspaces] at h
      cases h
      rfl
  | cons w rest ih =>
      simp only [listWorkspaces] at h ⊢
      cases hw : workspaceSessions w none with
      | error e => rw [hw] at h; exact (nomatch h)
      | ok ss =>
          rw [hw] at h
          cases hr : listWorkspaces rest none with
          | error e => rw [hr] at h; exact (nomatch h)
          | ok more =>
              rw [hr] at h
              cases h
              rw [workspaceSessions_filter w P ss hP hw, ih more hr]
              simp [List.filter_append]

/-- C6 fails as stated at the empty project label: `if project_filter and ...`
treats the empty string as "no filter", so `list_sessions(project_filter="")`
returns every session rather than exactly those whose label is `""`. -/
theorem claim_C6_counterexample :
    list_sessions fsBadRole (some "") = .ok [infoBadRole]
    ∧ [infoBadRole].filter (fun s => s.project == "") = []
    ∧ infoBadRole.project = "ws1" :=
  ⟨rfl, rfl, rfl⟩

/-- C6 (amended): for every non-empty project label `P`, a successful
unfiltered `list_sessions` run determines the filtered run:
`list_sessions(project_filter=P)` is exactly the sublist of sessions whose
resolved project label equals `P` (the empty-string filter instead disables
filtering). -/
theorem claim_C6 : ∀ (fs : CursorFS) (P : String) (l : List SessionInfo),
    P ≠ "" → list_sessions fs none = .ok l →
    list_sessions fs (some P) = .ok (l.filter (fun s => s.project == P)) := by
  intro fs P l hP h
  unfold list_sessions at h ⊢
  by_cases hs : fs.storageExists = true
  · simp only [hs, Bool.not_true, Bool.false_eq_true, if_false] at h ⊢
    exact listWorkspaces_filter _ _ _ hP h
  · simp only [Bool.not_eq_true] at hs
    simp only [hs] at h ⊢
    cases h
    rfl

theorem claim_C6_witness :
    list_sessions fsBadRole (some "ws1") =
      .ok ([infoBadRole].filter (fun s => s.project == "ws1")) :=
  claim_C6 fsBadRole "ws1" [infoBadRole] (by decide) rfl

theorem listRel_isEmpty {α β : Type} (r : α → β → Bool) (l1 : List α)
    (l2 : List β) (h : listRel r l1 l2 = true) : l1.isEmpty = l2.isEmpty := by
  cases l1 <;> cases l2 <;> simp_all [listRel]

theorem listRel_refl {α : Type} (r : α → α → Bool) (hr : ∀ a, r a a = true)
    (l : List α) : listRel r l l = true := by
  induction l with
  | nil => rfl
  | cons a as ih => simp [listRel, hr, ih]

theorem sessRelE_refl (v : JsonValue) : sessRelE v v = true := by
  simp [sessRelE]

theorem exceptRel_true_refl {α : Type} (x : Except String α) :
    exceptRel (fun _ _ => True) x x := by
  cases x <;> simp [exceptRel]

theorem listRel_objGet
    (extra : (String × JsonValue) → (String × JsonValue) → Bool)
    (f1 f2 : List (String × JsonValue))
    (h : listRel (fun a b => a.1 == b.1 && extra a b) f1 f2 = true)
    (k : String) :
    (objGet f1 k = none ∧ objGet f2 k = none)
    ∨ (∃ v1 v2, objGet f1 k = some v1 ∧ objGet f2 k = some v2
        ∧ extra (k, v1) (k, v2) = true) := by
  induction f1 generalizing f2 with
  | nil =>
      cases f2 with
      | nil => exact Or.inl ⟨rfl, rfl⟩
      | cons b bs => simp [listRel] at h
  | cons a as ih =>
      cases f2 with
      | nil => simp [listRel] at h
      | cons b bs =>
          obtain ⟨a1, a2⟩ := a
          obtain ⟨b1, b2⟩ := b
          simp only [listRel, Bool.and_eq_true, beq_iff_eq] at h
          obtain ⟨⟨hk, hx⟩, ht⟩ := h
          subst hk
          by_cases hak : a1 = k
          · subst hak
            exact Or.inr ⟨a2, b2, by simp [objGet], by simp [objGet], hx⟩
          · rcases ih bs ht with ⟨h1, h2⟩ | ⟨v1, v2, h1, h2, hx2⟩
            · exact Or.inl ⟨by simp [objGet, hak, h1], by simp [objGet, hak, h2]⟩
            · exact Or.inr ⟨v1, v2, by simp [objGet, hak, h1],
                by simp [objGet, hak, h2], hx2⟩

theorem sessRel_objGetD_eq (f1 f2 : List (String × JsonValue))
    (h : listRel sessFieldRel f1 f2 = true) (k : String)
    (hk : (k == "messages") = false) (d : JsonValue) :
    objGetD f1 k d = objGetD f2 k d := by
  rcases listRel_objGet
      (fun a b => (a.1 == "messages" && msgsRel a.2 b.2) || a.2 == b.2)
      f1 f2 h k with ⟨h1, h2⟩ | ⟨v1, v2, h1, h2, hx⟩
  · simp [objGetD, h1, h2]
  · simp only [Bool.or_eq_true, Bool.and_eq_true, beq_iff_eq] at hx
    rcases hx with ⟨hkm, _⟩ | hv
    · subst hkm
      simp at hk
    · simp [objGetD, h1, h2, hv]

theorem sessRel_messages_rel (f1 f2 : List (String × JsonValue))
    (h : listRel sessFieldRel f1 f2 = true) :
    (objGet f1 "messages" = none ∧ objGet f2 "messages" = none)
    ∨ (∃ v1 v2, objGet f1 "messages" = some v1 ∧ objGet f2 "messages" = some v2
        ∧ (msgsRel v1 v2 = true ∨ v1 = v2)) := by
  rcases listRel_objGet
      (fun a b => (a.1 == "messages" && msgsRel a.2 b.2) || a.2 == b.2)
      f1 f2 h "messages" with hleft | ⟨v1, v2, h1, h2, hx⟩
  · exact Or.inl hleft
  · refine Or.inr ⟨v1, v2, h1, h2, ?_⟩
    simp only [Bool.or_eq_true, Bool.and_eq_true, beq_iff_eq] at hx
    rcases hx with ⟨_, hm⟩ | hv
    · exact Or.inl hm
    · exact Or.inr hv

theorem msgsRel_truthy (v1 v2 : JsonValue) (h : msgsRel v1 v2 = true) :
    pyTruthy v1 = pyTruthy v2 := by
  cases v1 with
  | arr l1 =>
      cases v2 with
      | arr l2 =>
          simp only [msgsRel] at h
          simp [pyTruthy, listRel_isEmpty _ _ _ h]
      | null => simp [msgsRel] at h
      | bool b => simp [msgsRel] at h
      | num n => simp [msgsRel] at h
      | str s => simp [msgsRel] at h
      | obj f => simp [msgsRel] at h
  | null => simp [msgsRel] at h
  | bool b => simp [msgsRel] at h
  | num n => simp [msgsRel] at h
  | str s => simp [msgsRel] at h
  | obj f => simp [msgsRel] at h

theorem sessRel_messages_truthy (f1 f2 : List (String × JsonValue))
    (h : listRel sessFieldRel f1 f2 = true) (d : JsonValue) :
    pyTruthy (objGetD f1 "messages" d) = pyTruthy (objGetD f2 "messages" d) := by
  rcases sessRel_messages_rel f1 f2 h with ⟨h1, h2⟩ | ⟨v1, v2, h1, h2, hx⟩
  · simp [objGetD, h1, h2]
  · simp only [objGetD, h1, h2, Option.getD_some]
    rcases hx with hx | rfl
    · exact msgsRel_truthy v1 v2 hx
    · rfl

theorem extract_summary_rel (s1 s2 : JsonValue) (h : sessRelE s1 s2 = true) :
    exceptRel (fun _ _ => True) (extract_summary s1) (extract_summary s2) := by
  rcases (by simpa [sessRelE] using h : sessRel s1 s2 = true ∨ s1 = s2) with hs | rfl
  · cases s1 with
    | obj f1 =>
        cases s2 with
        | obj f2 =>
            simp only [sessRel] at hs
            simp only [extract_summary]
            rw [sessRel_objGetD_eq f1 f2 hs "title" (by decide) .null]
            by_cases ht : pyTruthy (objGetD f2 "title" .null) = true
            · simp [ht, exceptRel]
            · simp only [Bool.not_eq_true] at ht
              simp only [ht, Bool.false_eq_true, if_false]
              rw [sessRel_messages_truthy f1 f2 hs (.arr [])]
              by_cases hm : pyTruthy (objGetD f2 "messages" (.arr [])) = true
              · simp only [hm, if_true]
                rcases sessRel_messages_rel f1 f2 hs with ⟨h1, h2⟩ | ⟨v1, v2, h1, h2, hx⟩
                · simp [objGetD, h2, pyTruthy] at hm
                · simp only [objGetD, h1, h2, Option.getD_some]
                  rcases hx with hx | rfl
                  · cases v1 with
                    | arr l1 =>
                        cases v2 with
                        | arr l2 =>
                            simp only [msgsRel] at hx
                            simp only [objGetD, h2, Option.getD_some, pyTruthy] at hm
                            cases l2 with
                            | nil => simp at hm
                            | cons m2 r2 =>
                                cases l1 with
                                | nil => simp [listRel] at hx
                                | cons m1 r1 =>
                                    simp only [listRel, Bool.and_eq_true] at hx
                                    obtain ⟨hfirst, _⟩ := hx
                                    rcases (by simpa using hfirst :
                                        msgRel m1 m2 = true ∨ m1 = m2) with hr | rfl
                                    · cases m1 with
                                      | obj ff1 =>
                                          cases m2 with
                                          | obj ff2 =>
                                              dsimp only
                                              cases (objGet ff1 "content").getD (.str "") <;>
                                                cases (objGet ff2 "content").getD (.str "") <;>
                                                  simp [exceptRel]
                                          | null => simp [msgRel] at hr
                                          | bool b => simp [msgRel] at hr
                                          | num n => simp [msgRel] at hr
                                          | str s => simp [msgRel] at hr
                                          | arr l => simp [msgRel] at hr
                                      | null => simp [msgRel] at hr
                                      | bool b => simp [msgRel] at hr
                                      | num n => simp [msgRel] at hr
                                      | str s => simp [msgRel] at hr
                                      | arr l => simp [msgRel] at hr
                                    · exact exceptRel_true_refl _
                        | null => simp [msgsRel] at hx
                        | bool b => simp [msgsRel] at hx
                        | num n => simp [msgsRel] at hx
                        | str s => simp [msgsRel] at hx
                        | obj f => simp [msgsRel] at hx
                    | null => simp [msgsRel] at hx
                    | bool b => simp [msgsRel] at hx
                    | num n => simp [msgsRel] at hx
                    | str s => simp [msgsRel] at hx
                    | obj f => simp [msgsRel] at hx
                  · exact exceptRel_true_refl _
              · simp only [Bool.not_eq_true] at hm
                simp [hm, exceptRel]
        | null => simp [sessRel] at hs
        | bool b => simp [sessRel] at hs
        | num n => simp [sessRel] at hs
        | str s => simp [sessRel] at hs
        | arr l => simp [sessRel] at hs
    | null => simp [sessRel] at hs
    | bool b => simp [sessRel] at hs
    | num n => simp [sessRel] at hs
    | str s => simp [sessRel] at hs
    | arr l => simp [sessRel] at hs
  · exact exceptRel_true_refl _

theorem dictInsert_rel (d1 d2 : List (JsonValue × JsonValue))
    (hd : listRel dictEntryRel d1 d2 = true) (k v1 v2 : JsonValue)
    (hv : sessRelE v1 v2 = true) :
    listRel dictEntryRel (dictInsert d1 k v1) (dictInsert d2 k v2) = true := by
  induction d1 generalizing d2 with
  | nil =>
      cases d2 with
      | nil => simp [dictInsert, listRel, dictEntryRel, hv]
      | cons b bs => simp [listRel] at hd
  | cons a as ih =>
      cases d2 with
      | nil => simp [listRel] at hd
      | cons b bs =>
          obtain ⟨k1, w1⟩ := a
          obtain ⟨k2, w2⟩ := b
          simp only [listRel, dictEntryRel, Bool.and_eq_true, beq_iff_eq] at hd
          obtain ⟨⟨hk12, hw⟩, ht⟩ := hd
          subst hk12
          simp only [dictInsert]
          by_cases hkk : k1 = k
          · simp [hkk, listRel, dictEntryRel, hv, ht]
          · simp [hkk, listRel, dictEntryRel, hw, ih bs ht]

theorem addChatList_rel (pre : String) : ∀ (l1 l2 : List JsonValue)
    (d1 d2 : List (JsonValue × JsonValue)),
    listRel dictEntryRel d1 d2 = true → listRel sessRelE l1 l2 = true →
    ∀ i : Nat, listRel dictEntryRel (addChatList pre d1 l1 i)
      (addChatList pre d2 l2 i) = true
  | [], [], d1, d2, hd, _, _ => by simpa [addChatList] using hd
  | [], _ :: _, _, _, _, hl, _ => by simp [listRel] at hl
  | _ :: _, [], _, _, _, hl, _ => by simp [listRel] at hl
  | c1 :: cs1, c2 :: cs2, d1, d2, hd, hl, i => by
      simp only [listRel, Bool.and_eq_true] at hl
      obtain ⟨hc, htail⟩ := hl
      rcases (by simpa [sessRelE] using hc :
          sessRel c1 c2 = true ∨ c1 = c2) with hr | rfl
      · cases c1 with
        | obj cf1 =>
            cases c2 with
            | obj cf2 =>
                have hr' : listRel sessFieldRel cf1 cf2 = true := by
                  simpa [sessRel] using hr
                simp only [addChatList]
                rw [sessRel_messages_truthy cf1 cf2 hr' .null]
                by_cases hmt : pyTruthy (objGetD cf2 "messages" .null) = true
                · simp only [hmt, if_true]
                  rw [sessRel_objGetD_eq cf1 cf2 hr' "id" (by decide)
                    (.str (pre ++ toString i))]
                  exact addChatList_rel pre cs1 cs2 _ _
                    (dictInsert_rel d1 d2 hd _ _ _ hc) htail (i + 1)
                · simp only [Bool.not_eq_true] at hmt
                  simp only [hmt, Bool.false_eq_true, if_false]
                  exact addChatList_rel pre cs1 cs2 d1 d2 hd htail (i + 1)
            | null => simp [sessRel] at hr
            | bool b => simp [sessRel] at hr
            | num n => simp [sessRel] at hr
            | str s => simp [sessRel] at hr
            | arr l => simp [sessRel] at hr
        | null => simp [sessRel] at hr
        | bool b => simp [sessRel] at hr
        | num n => simp [sessRel] at hr
        | str s => simp [sessRel] at hr
        | arr l => simp [sessRel] at hr
      · cases c1 with
        | obj cf =>
            simp only [addChatList]
            by_cases hmt : pyTruthy (objGetD cf "messages" .null) = true
            · simp only [hmt, if_true]
              exact addChatList_rel pre cs1 cs2 _ _
                (dictInsert_rel d1 d2 hd _ _ _ (sessRelE_refl _)) htail (i + 1)
            · simp only [Bool.not_eq_true] at hmt
              simp only [hmt, Bool.false_eq_true, if_false]
              exact addChatList_rel pre cs1 cs2 d1 d2 hd htail (i + 1)
        | null => simpa only [addChatList] using
            addChatList_rel pre cs1 cs2 d1 d2 hd htail (i + 1)
        | bool b => simpa only [addChatList] using
            addChatList_rel pre cs1 cs2 d1 d2 hd htail (i + 1)
        | num n => simpa only [addChatList] using
            addChatList_rel pre cs1 cs2 d1 d2 hd htail (i + 1)
        | str s => simpa only [addChatList] using
            addChatList_rel pre cs1 cs2 d1 d2 hd htail (i + 1)
        | arr l => simpa only [addChatList] using
            addChatList_rel pre cs1 cs2 d1 d2 hd htail (i + 1)

theorem addComposers_rel : ∀ (c1 c2 : List (String × JsonValue))
    (d1 d2 : List (JsonValue × JsonValue)),
    listRel dictEntryRel d1 d2 = true → listRel compFieldRel c1 c2 = true →
    listRel dictEntryRel (addComposers d1 c1) (addComposers d2 c2) = true
  | [], [], d1, d2, hd, _ => by simpa [addComposers] using hd
  | [], _ :: _, _, _, _, hc => by simp [listRel] at hc
  | _ :: _, [], _, _, _, hc => by simp [listRel] at hc
  | (k1, v1) :: as, (k2, v2) :: bs, d1, d2, hd, hc => by
      simp only [listRel, compFieldRel, Bool.and_eq_true, beq_iff_eq] at hc
      obtain ⟨⟨hk, hv⟩, ht⟩ := hc
      subst hk
      rcases (by simpa [sessRelE] using hv :
          sessRel v1 v2 = true ∨ v1 = v2) with hr | rfl
      · cases v1 with
        | obj vf1 =>
            cases v2 with
            | obj vf2 =>
                simp only [addComposers]
                exact addComposers_rel as bs _ _
                  (dictInsert_rel d1 d2 hd _ _ _ hv) ht
            | null => simp [sessRel] at hr
            | bool b2 => simp [sessRel] at hr
            | num n => simp [sessRel] at hr
            | str s => simp [sessRel] at hr
            | arr l => simp [sessRel] at hr
        | null => simp [sessRel] at hr
        | bool b2 => simp [sessRel] at hr
        | num n => simp [sessRel] at hr
        | str s => simp [sessRel] at hr
        | arr l => simp [sessRel] at hr
      · cases v1 with
        | obj vf =>
            simp only [addComposers]
            exact addComposers_rel as bs _ _
              (dictInsert_rel d1 d2 hd _ _ _ (sessRelE_refl _)) ht
        | null => simpa only [addComposers] using addComposers_rel as bs d1 d2 hd ht
        | bool b2 => simpa only [addComposers] using addComposers_rel as bs d1 d2 hd ht
        | num n => simpa only [addComposers] using addComposers_rel as bs d1 d2 hd ht
        | str s => simpa only [addComposers] using addComposers_rel as bs d1 d2 hd ht
        | arr l => simpa only [addComposers] using addComposers_rel as bs d1 d2 hd ht

theorem compFieldRel_refl (a : String × JsonValue) : compFieldRel a a = true := by
  simp [compFieldRel, sessRelE_refl]

theorem valRel_refl (v : JsonValue) : valRel v v = true := by
  simp [valRel]

theorem processRow_rel (d1 d2 : List (JsonValue × JsonValue))
    (hd : listRel dictEntryRel d1 d2 = true) (key : String)
    (v1 v2 : JsonValue) (hv : valRel v1 v2 = true) :
    exceptRel (fun r1 r2 => listRel dictEntryRel r1 r2 = true)
      (processRow d1 key v1) (processRow d2 key v2) := by
  have hsplit : sessListRel v1 v2 = true ∨ valObjRel v1 v2 = true ∨ v1 = v2 := by
    simpa only [valRel, Bool.or_eq_true, beq_iff_eq, or_assoc] using hv
  by_cases hk1 : key = "workbench.panel.aichat.view.aichat.chatdata"
  · subst hk1
    simp only [processRow, if_pos rfl]
    rcases hsplit with ha | hb | hc
    · cases v1 with
      | arr l1 =>
          cases v2 with
          | arr l2 =>
              have hl : listRel sessRelE l1 l2 = true := by
                simpa [sessListRel] using ha
              simpa [exceptRel] using addChatList_rel "chat-" l1 l2 d1 d2 hd hl 0
          | null => simp [sessListRel] at ha
          | bool b => simp [sessListRel] at ha
          | num n => simp [sessListRel] at ha
          | str s => simp [sessListRel] at ha
          | obj f => simp [sessListRel] at ha
      | null => simp [sessListRel] at ha
      | bool b => simp [sessListRel] at ha
      | num n => simp [sessListRel] at ha
      | str s => simp [sessListRel] at ha
      | obj f => simp [sessListRel] at ha
    · cases v1 with
      | obj f1 =>
          cases v2 with
          | obj f2 =>
              have hb2 : listRel valFieldRel f1 f2 = true := by
                simpa [valObjRel] using hb
              rcases listRel_objGet
                  (fun a b => (a.1 == "tabs" && sessListRel a.2 b.2) ||
                    (a.1 == "composers" && composersRel a.2 b.2) || a.2 == b.2)
                  f1 f2 hb2 "tabs" with ⟨h1, h2⟩ | ⟨t1, t2, h1, h2, hx⟩
              · simp only [objGetD, h1, h2, Option.getD_none]
                simpa [pyIter, exceptRel] using
                  addChatList_rel "tab-" [] [] d1 d2 hd rfl 0
              · simp only [objGetD, h1, h2, Option.getD_some]
                have hx' : sessListRel t1 t2 = true ∨ t1 = t2 := by
                  simpa [Bool.or_eq_true, beq_iff_eq] using hx
                rcases hx' with hx | rfl
                · cases t1 with
                  | arr tl1 =>
                      cases t2 with
                      | arr tl2 =>
                          have htl : listRel sessRelE tl1 tl2 = true := by
                            simpa [sessListRel] using hx
                          simpa [pyIter, exceptRel] using
                            addChatList_rel "tab-" tl1 tl2 d1 d2 hd htl 0
                      | null => simp [sessListRel] at hx
                      | bool b => simp [sessListRel] at hx
                      | num n => simp [sessListRel] at hx
                      | str s => simp [sessListRel] at hx
                      | obj f => simp [sessListRel] at hx
                  | null => simp [sessListRel] at hx
                  | bool b => simp [sessListRel] at hx
                  | num n => simp [sessListRel] at hx
                  | str s => simp [sessListRel] at hx
                  | obj f => simp [sessListRel] at hx
                · cases hpi : pyIter t1 with
                  | error e => simp [hpi, exceptRel]
                  | ok tl =>
                      simpa [hpi, exceptRel] using
                        addChatList_rel "tab-" tl tl d1 d2 hd
                          (listRel_refl sessRelE sessRelE_refl tl) 0
          | null => simp [valObjRel] at hb
          | bool b => simp [valObjRel] at hb
          | num n => simp [valObjRel] at hb
          | str s => simp [valObjRel] at hb
          | arr l => simp [valObjRel] at hb
      | null => simp [valObjRel] at hb
      | bool b => simp [valObjRel] at hb
      | num n => simp [valObjRel] at hb
      | str s => simp [valObjRel] at hb
      | arr l => simp [valObjRel] at hb
    · subst hc
      cases v1 with
      | arr l =>
          simpa [exceptRel] using
            addChatList_rel "chat-" l l d1 d2 hd
              (listRel_refl sessRelE sessRelE_refl l) 0
      | obj f =>
          cases hpi : pyIter (objGetD f "tabs" (.arr [])) with
          | error e => simp [hpi, exceptRel]
          | ok tl =>
              simpa [hpi, exceptRel] using
                addChatList_rel "tab-" tl tl d1 d2 hd
                  (listRel_refl sessRelE sessRelE_refl tl) 0
      | null => simpa [exceptRel] using hd
      | bool b => simpa [exceptRel] using hd
      | num n => simpa [exceptRel] using hd
      | str s => simpa [exceptRel] using hd
  · by_cases hk2 : key = "composer.composerData"
    · subst hk2
      simp only [processRow,
        if_neg (show ¬("composer.composerData" =
          "workbench.panel.aichat.view.aichat.chatdata") from by decide),
        if_pos rfl]
      rcases hsplit with ha | hb | hc
      · cases v1 with
        | arr l1 =>
            cases v2 with
            | arr l2 => simpa [exceptRel] using hd
            | null => simp [sessListRel] at ha
            | bool b => simp [sessListRel] at ha
            | num n => simp [sessListRel] at ha
            | str s => simp [sessListRel] at ha
            | obj f => simp [sessListRel] at ha
        | null => simp [sessListRel] at ha
        | bool b => simp [sessListRel] at ha
        | num n => simp [sessListRel] at ha
        | str s => simp [sessListRel] at ha
        | obj f => simp [sessListRel] at ha
      · cases v1 with
        | obj f1 =>
            cases v2 with
            | obj f2 =>
                have hb2 : listRel valFieldRel f1 f2 = true := by
                  simpa [valObjRel] using hb
                rcases listRel_objGet
                    (fun a b => (a.1 == "tabs" && sessListRel a.2 b.2) ||
                      (a.1 == "composers" && composersRel a.2 b.2) || a.2 == b.2)
                    f1 f2 hb2 "composers" with ⟨h1, h2⟩ | ⟨c1, c2, h1, h2, hx⟩
                · simp only [objGetD, h1, h2, Option.getD_none]
                  simpa [addComposers, exceptRel] using hd
                · simp only [objGetD, h1, h2, Option.getD_some]
                  have hx' : composersRel c1 c2 = true ∨ c1 = c2 := by
                    simpa [Bool.or_eq_true, beq_iff_eq] using hx
                  rcases hx' with hx | rfl
                  · cases c1 with
                    | obj comps1 =>
                        cases c2 with
                        | obj comps2 =>
                            have hcc : listRel compFieldRel comps1 comps2 = true := by
                              simpa [composersRel] using hx
                            simpa [exceptRel] using
                              addComposers_rel comps1 comps2 d1 d2 hd hcc
                        | null => simp [composersRel] at hx
                        | bool b => simp [composersRel] at hx
                        | num n => simp [composersRel] at hx
                        | str s => simp [composersRel] at hx
                        | arr l => simp [composersRel] at hx
                    | null => simp [composersRel] at hx
                    | bool b => simp [composersRel] at hx
                    | num n => simp [composersRel] at hx
                    | str s => simp [composersRel] at hx
                    | arr l => simp [composersRel] at hx
                  · cases c1 with
                    | obj comps =>
                        simpa [exceptRel] using
                          addComposers_rel comps comps d1 d2 hd
                            (listRel_refl compFieldRel compFieldRel_refl comps)
                    | null => simp [exceptRel]
                    | bool b => simp [exceptRel]
                    | num n => simp [exceptRel]
                    | str s => simp [exceptRel]
                    | arr l => simp [exceptRel]
            | null => simp [valObjRel] at hb
            | bool b => simp [valObjRel] at hb
            | num n => simp [valObjRel] at hb
            | str s => simp [valObjRel] at hb
            | arr l => simp [valObjRel] at hb
        | null => simp [valObjRel] at hb
        | bool b => simp [valObjRel] at hb
        | num n => simp [valObjRel] at hb
        | str s => simp [valObjRel] at hb
        | arr l => simp [valObjRel] at hb
      · subst hc
        cases v1 with
        | obj f =>
            cases hcv : objGetD f "composers" (.obj []) with
            | obj comps =>
                simpa [hcv, exceptRel] using
                  addComposers_rel comps comps d1 d2 hd
                    (listRel_refl compFieldRel compFieldRel_refl comps)
            | null => simp [hcv, exceptRel]
            | bool b => simp [hcv, exceptRel]
            | num n => simp [hcv, exceptRel]
            | str s => simp [hcv, exceptRel]
            | arr l => simp [hcv, exceptRel]
        | null => simpa [exceptRel] using hd
        | bool b => simpa [exceptRel] using hd
        | num n => simpa [exceptRel] using hd
        | str s => simpa [exceptRel] using hd
        | arr l => simpa [exceptRel] using hd
    · simp only [processRow, if_neg hk1, if_neg hk2]
      simpa [exceptRel] using hd

theorem processRows_rel : ∀ (rows1 rows2 : List (String × RawValue))
    (d1 d2 : List (JsonValue × JsonValue)),
    listRel dictEntryRel d1 d2 = true →
    listRel (fun a b => a.1 == b.1 && rawRel a.2 b.2) rows1 rows2 = true →
    exceptRel (fun r1 r2 => listRel dictEntryRel r1 r2 = true)
      (processRows d1 rows1) (processRows d2 rows2)
  | [], [], d1, d2, hd, _ => by simpa [processRows, exceptRel] using hd
  | [], _ :: _, _, _, _, hr => by simp [listRel] at hr
  | _ :: _, [], _, _, _, hr => by simp [listRel] at hr
  | (k1, rv1) :: r1, (k2, rv2) :: r2, d1, d2, hd, hr => by
      simp only [listRel, Bool.and_eq_true, beq_iff_eq] at hr
      obtain ⟨⟨hk, hraw⟩, ht⟩ := hr
      subst hk
      by_cases hck : k1 ∈ chatKeys
      · have hsplit : rv1 = rv2
            ∨ (∃ j1 j2, rv1 = .valid j1 ∧ rv2 = .valid j2 ∧ valRel j1 j2 = true) := by
          rcases (by simpa only [rawRel, Bool.or_eq_true, beq_iff_eq] using hraw :
              rv1 = rv2 ∨ rawValidRel rv1 rv2 = true) with heq | hm
          · exact Or.inl heq
          · cases rv1 with
            | valid j1 =>
                cases rv2 with
                | valid j2 => exact Or.inr ⟨j1, j2, rfl, rfl, by simpa [rawValidRel] using hm⟩
                | empty => simp [rawValidRel] at hm
                | invalid => simp [rawValidRel] at hm
            | empty => simp [rawValidRel] at hm
            | invalid => simp [rawValidRel] at hm
        rcases hsplit with rfl | ⟨j1, j2, rfl, rfl, hvj⟩
        · cases rv1 with
          | empty =>
              simp only [processRows, if_pos hck]
              exact processRows_rel r1 r2 d1 d2 hd ht
          | invalid =>
              simp only [processRows, if_pos hck]
              exact processRows_rel r1 r2 d1 d2 hd ht
          | valid data =>
              simp only [processRows, if_pos hck]
              have hp := processRow_rel d1 d2 hd k1 data data (valRel_refl data)
              cases hp1 : processRow d1 k1 data with
              | error e1 =>
                  cases hp2 : processRow d2 k1 data with
                  | error e2 =>
                      rw [hp1, hp2] at hp
                      simpa [exceptRel] using hp
                  | ok s2 => rw [hp1, hp2] at hp; exact absurd hp (by simp [exceptRel])
              | ok s1' =>
                  cases hp2 : processRow d2 k1 data with
                  | error e2 => rw [hp1, hp2] at hp; exact absurd hp (by simp [exceptRel])
                  | ok s2' =>
                      rw [hp1, hp2] at hp
                      exact processRows_rel r1 r2 s1' s2' hp ht
        · simp only [processRows, if_pos hck]
          have hp := processRow_rel d1 d2 hd k1 j1 j2 hvj
          cases hp1 : processRow d1 k1 j1 with
          | error e1 =>
              cases hp2 : processRow d2 k1 j2 with
              | error e2 =>
                  rw [hp1, hp2] at hp
                  simpa [exceptRel] using hp
              | ok s2 => rw [hp1, hp2] at hp; exact absurd hp (by simp [exceptRel])
          | ok s1' =>
              cases hp2 : processRow d2 k1 j2 with
              | error e2 => rw [hp1, hp2] at hp; exact absurd hp (by simp [exceptRel])
              | ok s2' =>
                  rw [hp1, hp2] at hp
                  exact processRows_rel r1 r2 s1' s2' hp ht
      · simp only [processRows, if_neg hck]
        exact processRows_rel r1 r2 d1 d2 hd ht

theorem get_chat_data_rel (s1 s2 : Store) (h : storeRel s1 s2 = true) :
    exceptRel (fun r1 r2 => listRel dictEntryRel r1 r2 = true)
      (get_chat_data s1).result (get_chat_data s2).result := by
  obtain ⟨hq, hrows⟩ := (by
    simpa only [storeRel, Bool.and_eq_true, beq_iff_eq] using h :
      s1.queryOk = s2.queryOk
      ∧ listRel (fun a b => a.1 == b.1 && rawRel a.2 b.2) s1.rows s2.rows = true)
  unfold get_chat_data
  rw [hq]
  cases hq2 : s2.queryOk with
  | false => simp [exceptRel, listRel]
  | true =>
      simp only [if_pos rfl]
      have hp := processRows_rel s1.rows s2.rows [] [] rfl hrows
      cases hp1 : processRows [] s1.rows with
      | error e1 =>
          cases hp2 : processRows [] s2.rows with
          | error e2 =>
              rw [hp1, hp2] at hp
              simpa [exceptRel] using hp
          | ok x2 => rw [hp1, hp2] at hp; exact absurd hp (by simp [exceptRel])
      | ok x1 =>
          cases hp2 : processRows [] s2.rows with
          | error e2 => rw [hp1, hp2] at hp; exact absurd hp (by simp [exceptRel])
          | ok x2 =>
              rw [hp1, hp2] at hp
              simpa [exceptRel] using hp

theorem buildInfos_rel : ∀ (cd1 cd2 : List (JsonValue × JsonValue))
    (w1 w2 : WorkspaceDir), w1.name = w2.name → w1.mtime = w2.mtime →
    w1.size = w2.size → ∀ pn : String,
    listRel dictEntryRel cd1 cd2 = true →
    exceptRel (fun l1 l2 => l1.map eraseSummary = l2.map eraseSummary)
      (buildInfos w1 pn cd1) (buildInfos w2 pn cd2)
  | [], [], w1, w2, _, _, _, pn, _ => by simp [buildInfos, exceptRel]
  | [], _ :: _, _, _, _, _, _, _, h => by simp [listRel] at h
  | _ :: _, [], _, _, _, _, _, _, h => by simp [listRel] at h
  | (sid1, sd1) :: rest1, (sid2, sd2) :: rest2, w1, w2, hn, hm, hs, pn, h => by
      simp only [listRel, dictEntryRel, Bool.and_eq_true, beq_iff_eq] at h
      obtain ⟨⟨hsid, hsd⟩, ht⟩ := h
      subst hsid
      simp only [buildInfos]
      have hsum := extract_summary_rel sd1 sd2 hsd
      cases he1 : extract_summary sd1 with
      | error e1 =>
          cases he2 : extract_summary sd2 with
          | error e2 => rw [he1, he2] at hsum; simpa [exceptRel] using hsum
          | ok x2 => rw [he1, he2] at hsum; exact absurd hsum (by simp [exceptRel])
      | ok x1 =>
          cases he2 : extract_summary sd2 with
          | error e2 => rw [he1, he2] at hsum; exact absurd hsum (by simp [exceptRel])
          | ok x2 =>
              have hrec := buildInfos_rel rest1 rest2 w1 w2 hn hm hs pn ht
              cases hb1 : buildInfos w1 pn rest1 with
              | error e1 =>
                  cases hb2 : buildInfos w2 pn rest2 with
                  | error e2 => rw [hb1, hb2] at hrec; simpa [exceptRel] using hrec
                  | ok l2 => rw [hb1, hb2] at hrec; exact absurd hrec (by simp [exceptRel])
              | ok l1 =>
                  cases hb2 : buildInfos w2 pn rest2 with
                  | error e2 => rw [hb1, hb2] at hrec; exact absurd hrec (by simp [exceptRel])
                  | ok l2 =>
                      rw [hb1, hb2] at hrec
                      simp only [exceptRel] at hrec ⊢
                      simp [eraseSummary, hn, hm, hs, hrec]

theorem workspaceSessions_rel (w1 w2 : WorkspaceDir) (h : wsRel w1 w2 = true)
    (pf : Option String) :
    exceptRel (fun l1 l2 => l1.map eraseSummary = l2.map eraseSummary)
      (workspaceSessions w1 pf) (workspaceSessions w2 pf) := by
  obtain ⟨hn, hdir, hvs, hdesc, hstore, hm, hs⟩ := (by
    simpa only [wsRel, Bool.and_eq_true, beq_iff_eq, and_assoc] using h :
      w1.name = w2.name ∧ w1.isDir = w2.isDir ∧ w1.hasVscdb = w2.hasVscdb
      ∧ w1.descriptor = w2.descriptor ∧ storeRel w1.store w2.store = true
      ∧ w1.mtime = w2.mtime ∧ w1.size = w2.size)
  unfold workspaceSessions
  rw [hn, hdir, hvs, hdesc]
  by_cases hd2 : w2.isDir = true
  case neg =>
      simp only [Bool.not_eq_true] at hd2
      simp [hd2, exceptRel]
  by_cases hv2 : w2.hasVscdb = true
  case neg =>
      simp only [Bool.not_eq_true] at hv2
      simp [hd2, hv2, exceptRel]
  simp only [hd2, hv2, Bool.not_true, Bool.false_eq_true, if_false]
  cases hf : get_workspace_folder w2.descriptor with
  | error e => simp [exceptRel]
  | ok folder? =>
      dsimp only
      set pn := (match folder? with
        | some p => if p.data.isEmpty then w2.name else p
        | none => w2.name) with hpn
      by_cases hskip : pfSkip pf pn = true
      · simp [hskip, exceptRel]
      · simp only [Bool.not_eq_true] at hskip
        simp only [hskip, Bool.false_eq_true, if_false]
        have hg := get_chat_data_rel w1.store w2.store hstore
        cases hc1 : (get_chat_data w1.store).result with
        | error e1 =>
            cases hc2 : (get_chat_data w2.store).result with
            | error e2 =>
                rw [hc1, hc2] at hg
                simpa [exceptRel] using hg
            | ok cd2 => rw [hc1, hc2] at hg; exact absurd hg (by simp [exceptRel])
        | ok cd1 =>
            cases hc2 : (get_chat_data w2.store).result with
            | error e2 => rw [hc1, hc2] at hg; exact absurd hg (by simp [exceptRel])
            | ok cd2 =>
                rw [hc1, hc2] at hg
                simp only [exceptRel] at hg
                have hemp : cd1.isEmpty = cd2.isEmpty := listRel_isEmpty _ _ _ hg
                dsimp only
                rw [hemp]
                by_cases he : cd2.isEmpty = true
                · simp [he, exceptRel]
                · simp only [Bool.not_eq_true] at he
                  simp only [he, Bool.false_eq_true, if_false]
                  exact buildInfos_rel cd1 cd2 w1 w2 hn hm hs pn hg

theorem listWorkspaces_rel : ∀ (ws1 ws2 : List WorkspaceDir),
    listRel wsRel ws1 ws2 = true → ∀ pf : Option String,
    exceptRel (fun l1 l2 => l1.map eraseSummary = l2.map eraseSummary)
      (listWorkspaces ws1 pf) (listWorkspaces ws2 pf)
  | [], [], _, pf => by simp [listWorkspaces, exceptRel]
  | [], _ :: _, h, _ => by simp [listRel] at h
  | _ :: _, [], h, _ => by simp [listRel] at h
  | w1 :: r1, w2 :: r2, h, pf => by
      simp only [listRel, Bool.and_eq_true] at h
      obtain ⟨hw, ht⟩ := h
      simp only [listWorkspaces]
      have h1 := workspaceSessions_rel w1 w2 hw pf
      have h2 := listWorkspaces_rel r1 r2 ht pf
      cases hw1 : workspaceSessions w1 pf with
      | error e1 =>
          cases hw2 : workspaceSessions w2 pf with
          | error e2 => rw [hw1, hw2] at h1; simpa [exceptRel] using h1
          | ok ss2 => rw [hw1, hw2] at h1; exact absurd h1 (by simp [exceptRel])
      | ok ss1 =>
          cases hw2 : workspaceSessions w2 pf with
          | error e2 => rw [hw1, hw2] at h1; exact absurd h1 (by simp [exceptRel])
          | ok ss2 =>
              rw [hw1, hw2] at h1
              cases hr1 : listWorkspaces r1 pf with
              | error e1 =>
                  cases hr2 : listWorkspaces r2 pf with
                  | error e2 => rw [hr1, hr2] at h2; simpa [exceptRel] using h2
                  | ok more2 => rw [hr1, hr2] at h2; exact absurd h2 (by simp [exceptRel])
              | ok more1 =>
                  cases hr2 : listWorkspaces r2 pf with
                  | error e2 => rw [hr1, hr2] at h2; exact absurd h2 (by simp [exceptRel])
                  | ok more2 =>
                      rw [hr1, hr2] at h2
                      simp only [exceptRel] at h1 h2 ⊢
                      simp [List.map_append, h1, h2]

/-- C8: listing is metadata-only.  For any two filesystems whose stores
differ only in the message bodies of their sessions (`fsRel`),
`list_sessions` produces the same listing — the same session ids, sources,
projects, paths, modified timestamps and sizes (everything except the
`summary` field, which is derived from the first message's body). -/
theorem claim_C8 : ∀ (fs1 fs2 : CursorFS) (pf : Option String),
    fsRel fs1 fs2 = true →
    Except.map (List.map eraseSummary) (list_sessions fs1 pf) =
    Except.map (List.map eraseSummary) (list_sessions fs2 pf) := by
  intro fs1 fs2 pf h
  obtain ⟨hse, hws⟩ := (by
    simpa only [fsRel, Bool.and_eq_true, beq_iff_eq] using h :
      fs1.storageExists = fs2.storageExists
      ∧ listRel wsRel fs1.workspaces fs2.workspaces = true)
  unfold list_sessions
  rw [hse]
  by_cases hs2 : fs2.storageExists = true
  · simp only [hs2, Bool.not_true, Bool.false_eq_true, if_false]
    have hl := listWorkspaces_rel fs1.workspaces fs2.workspaces hws pf
    cases hl1 : listWorkspaces fs1.workspaces pf with
    | error e1 =>
        cases hl2 : listWorkspaces fs2.workspaces pf with
        | error e2 =>
            rw [hl1, hl2] at hl
            simp only [exceptRel] at hl
            simp [Except.map, hl]
        | ok l2 => rw [hl1, hl2] at hl; exact absurd hl (by simp [exceptRel])
    | ok l1 =>
        cases hl2 : listWorkspaces fs2.workspaces pf with
        | error e2 => rw [hl1, hl2] at hl; exact absurd hl (by simp [exceptRel])
        | ok l2 =>
            rw [hl1, hl2] at hl
            simp only [exceptRel] at hl
            simp [Except.map, hl]
  · simp only [Bool.not_eq_true] at hs2
    simp [hs2]

theorem claim_C8_witness :
    fsRel fsW1 fsW2 = true
    ∧ Except.map (List.map eraseSummary) (list_sessions fsW1 none) =
      Except.map (List.map eraseSummary) (list_sessions fsW2 none) :=
  ⟨by decide, claim_C8 fsW1 fsW2 none (by decide)⟩
